import Mathlib

/-!
Verification of the LP-solver harness of DeepConcolic (`src/lp.py`).

The Python module manages a cache of per-layer PuLP problems for a DNN,
a shared scalar distance variable used as the minimization objective, and
a constrained-solve protocol (`find_constrained_input`) that temporarily
extends a cached problem with ephemeral constraints, solves, extracts a
witness input and removes the ephemeral constraints again.

The shallow embedding below models:
  - PuLP problems as records with a constraint dictionary
    (association list keyed by constraint name, Python-dict semantics:
    assignment overwrites in place, deletion of a missing key is a
    `KeyError`) and an optional affine objective;
  - numpy arrays as a shape (list of dimensions) plus flat data;
  - the external LP backend as a function parameter returning either a
    solve outcome (status + variable valuation) or a raised exception;
  - Python exceptions (`assert` failures, `KeyError`, missing-attribute
    access) via an error type, with mutable state passed explicitly so
    that the state at the point an exception escapes is observable.
-/

namespace DeepConcolic

/-- Python-level exception values that the modelled code can raise. -/
inductive PyErr where
  | AssertionError
  | KeyError
  | AttributeError
  | SolverError
  deriving DecidableEq, Repr

/-- PuLP solver statuses (`LpStatus[problem.status]`). -/
inductive LpStatusT where
  | Optimal
  | Infeasible
  | Unbounded
  | Undefined
  | NotSolved
  deriving DecidableEq, Repr

/-- A named linear constraint (`pulp.LpConstraint`): a name, the affine
terms (variable, coefficient) and a right-hand side.  Only the name is
relevant to the add/remove protocol of `find_constrained_input`. -/
structure LpConstraint where
  cname : String
  terms : List (String × ℚ)
  rhs : ℚ
  deriving DecidableEq, Repr

/-- Python-dict membership test on an association list. -/
def hasKey {κ α : Type} [DecidableEq κ] (k : κ) : List (κ × α) → Bool
  | [] => false
  | (k', _) :: r => if k' = k then true else hasKey k r

/-- Python-dict lookup on an association list. -/
def lookupKey {κ α : Type} [DecidableEq κ] (k : κ) : List (κ × α) → Option α
  | [] => none
  | (k', v) :: r => if k' = k then some v else lookupKey k r

/-- Python-dict assignment `d[k] = v`: overwrite in place when the key is
present, append otherwise. -/
def setKey {κ α : Type} [DecidableEq κ] (k : κ) (v : α) : List (κ × α) → List (κ × α)
  | [] => [(k, v)]
  | (k', v') :: r => if k' = k then (k, v) :: r else (k', v') :: setKey k v r

/-- Python-dict deletion `del d[k]` of a present key: drop the first
binding of `k`. -/
def eraseKey {κ α : Type} [DecidableEq κ] (k : κ) : List (κ × α) → List (κ × α)
  | [] => []
  | (k', v') :: r => if k' = k then r else (k', v') :: eraseKey k r

/-- A PuLP problem: a constraint dictionary keyed by constraint name, and
an optional objective (affine expression over variable names). -/
structure LpProblem where
  constraints : List (String × LpConstraint)
  objective : Option (List (String × ℚ))
  deriving DecidableEq, Repr

/-- `problem += c` for a constraint: `self.constraints[c.name] = c`. -/
def LpProblem.addConstraint (p : LpProblem) (c : LpConstraint) : LpProblem :=
  { p with constraints := setKey c.cname c p.constraints }

/-- `for c in cstrs: problem += c`. -/
def addAll (p : LpProblem) (cs : List LpConstraint) : LpProblem :=
  cs.foldl LpProblem.addConstraint p

/-- `for c in cstrs: del problem.constraints[c.name]`: deletes in order,
stopping with a `KeyError` (and the partially-cleaned problem) at the
first absent name. -/
def delAll (p : LpProblem) : List LpConstraint → LpProblem × Option PyErr
  | [] => (p, none)
  | c :: cs =>
    if hasKey c.cname p.constraints then
      delAll { p with constraints := eraseKey c.cname p.constraints } cs
    else (p, some PyErr.KeyError)

/-- A numpy array: shape plus flattened data. -/
structure NdArray (α : Type) where
  shape : List Nat
  data : List α
  deriving DecidableEq, Repr

/-- `PulpLinearMetric`: scalar bounds (`low[0]`, `up[0]` of the underlying
`UniformBounds`) plus the lower-bound noise factor. -/
structure PulpLinearMetric where
  low : ℚ
  up : ℚ
  LB_noise : ℚ
  deriving DecidableEq, Repr

/-- `lower_bound` property: `self.low[0]`. -/
def PulpLinearMetric.lower_bound (m : PulpLinearMetric) : ℚ := m.low

/-- `upper_bound` property: `self.up[0]`. -/
def PulpLinearMetric.upper_bound (m : PulpLinearMetric) : ℚ := m.up

/-- `PulpLinearMetric.__init__`: `assert 0 < LB_noise < 1`, then store the
noise factor.  The `AssertionError` of a failed `assert` is modelled as an
`Except.error`. -/
def PulpLinearMetric.init (LB_noise low up : ℚ) : Except PyErr PulpLinearMetric :=
  if 0 < LB_noise ∧ LB_noise < 1 then
    Except.ok { low := low, up := up, LB_noise := LB_noise }
  else Except.error PyErr.AssertionError

/-- `dist_var_name` property: the constant name `d` of the shared distance
variable. -/
def PulpLinearMetric.dist_var_name (_ : PulpLinearMetric) : String := "d"

/-- `draw_lower_bound`: returns `draw(self.lower_bound, self.upper_bound *
self.LB_noise)`.  The drawing function (`np.random.uniform` by default) is
a parameter. -/
def PulpLinearMetric.draw_lower_bound (m : PulpLinearMetric) (draw : ℚ → ℚ → ℚ) : ℚ :=
  draw m.lower_bound (m.upper_bound * m.LB_noise)

/-- A drawing function that returns a value lying within the two bounds it
is given as arguments (in either order), as `np.random.uniform` does. -/
def RespectsBounds (draw : ℚ → ℚ → ℚ) : Prop :=
  ∀ a b, min a b ≤ draw a b ∧ draw a b ≤ max a b

/-- `PulpSolver4DNN.__init__` backend selection: the first name of the
preference-ordered `try_solvers` list that occurs among the available
backends; `none` when no candidate is available, in which case the Python
constructor finishes without ever assigning `self.solver`. -/
def selectSolver (try_solvers available : List String) : Option String :=
  try_solvers.find? (fun s => available.contains s)

/-- The state of a `PulpSolver4DNN` instance after `setup`:
  - `solver`: the backend chosen at construction (`none` models the
    attribute never having been assigned);
  - `input_in_vars`: the symbolic input-variable array
    (`self.input_layer_encoder.pulp_in_vars()`), by variable name;
  - `base_constraints`: the per-depth problem cache (a dict keyed by
    layer depth);
  - `d_var_name`, `d_var_low`, `d_var_up`: the single shared distance
    variable `self.d_var` (its name and current bounds); every cached
    problem's objective refers to this one shared variable, so mutating
    `d_var_low` affects every cached problem at once. -/
structure PulpSolver4DNN where
  solver : Option String
  input_in_vars : NdArray String
  base_constraints : List (Nat × LpProblem)
  d_var_name : String
  d_var_low : ℚ
  d_var_up : ℚ
  deriving DecidableEq, Repr

/-- `PulpSolver4DNN.setup`: after the externally-built base problem cache
is obtained, create the shared distance variable with bounds
`[metric.draw_lower_bound(), metric.upper_bound]` and set every cached
problem's objective to it (`p += self.d_var` sets `p.objective` to the
affine expression consisting of the variable alone). -/
def PulpSolver4DNN.setup (solver : Option String) (metric : PulpLinearMetric)
    (draw : ℚ → ℚ → ℚ) (in_vars : NdArray String)
    (base : List (Nat × LpProblem)) : PulpSolver4DNN :=
  { solver := solver
    input_in_vars := in_vars
    base_constraints :=
      base.map (fun e => (e.1, { e.2 with objective := some [(metric.dist_var_name, 1)] }))
    d_var_name := metric.dist_var_name
    d_var_low := metric.draw_lower_bound draw
    d_var_up := metric.upper_bound }

/-- A layer handle (`engine.CL`): its index and whether
`activation_is_relu(cl.layer)` holds. -/
structure CL where
  layer_index : Nat
  relu : Bool
  deriving DecidableEq, Repr

/-- `PulpSolver4DNN.for_layer`: look up the cached problem at key
`cl.layer_index + (0 if activation_is_relu(cl.layer) else 1)`; a missing
key is a Python `KeyError`. -/
def PulpSolver4DNN.for_layer (s : PulpSolver4DNN) (cl : CL) : Except PyErr LpProblem :=
  let index := cl.layer_index + (if cl.relu then 0 else 1)
  match lookupKey index s.base_constraints with
  | some p => Except.ok p
  | none => Except.error PyErr.KeyError

/-- What the external backend reports for one solve: the final status and
the assignment of values to variables (`pulp.value`). -/
structure SolveOutcome where
  status : LpStatusT
  valuation : String → ℚ

/-- The external backend: given the chosen backend name, the problem and
the current bounds of the shared distance variable, either return an
outcome or raise. -/
abbrev SolverFn := String → LpProblem → ℚ → ℚ → Except PyErr SolveOutcome

/-- The abstract `metric.pulp_constrain(self.d_var, in_vars, x,
name_prefix=...)`: from the distance-variable name, the symbolic input
variables, the concrete input and the optional name prefix, produce the
ephemeral metric constraints. -/
abbrev ConstrainFn := String → NdArray String → NdArray ℚ → Option String → List LpConstraint

/-- `pulp.value` of an affine expression under a valuation. -/
def evalAffine (val : String → ℚ) (e : List (String × ℚ)) : ℚ :=
  (e.map (fun t => t.2 * val t.1)).sum

/-- Everything observable when `find_constrained_input` terminates
(normally or by an escaping exception): the final state of the problem
object, of the shared distance variable's lower bound, of the (mutable)
`extra_constrs` list object, and the returned value or raised error. -/
structure FindPost where
  problem : LpProblem
  d_var_low : ℚ
  extra : List LpConstraint
  res : Except PyErr (Option (ℚ × NdArray ℚ))

/-- `PulpSolver4DNN.find_constrained_input`, step for step:
 1. `assert in_vars.shape == x.shape` (before anything is mutated);
 2. `cstrs = extra_constrs; cstrs.extend(metric.pulp_constrain(...))` —
    `cstrs` aliases the caller's `extra_constrs` list, which is hence
    extended in place;
 3. `for c in cstrs: problem += c`;
 4. `self.d_var.lowBound = metric.draw_lower_bound()`;
 5. `assert problem.objective is not None`;
 6. `problem.solve(self.solver)` — reading `self.solver` raises
    `AttributeError` when the constructor assigned no backend;
 7. on status `Optimal`, read back the input-variable values into an
    array of the input shape and the objective value, else `None`;
 8. `for c in cstrs: del problem.constraints[c.name]` — no try/finally
    protects this cleanup, so an exception at steps 5-7 skips it. -/
def PulpSolver4DNN.find_constrained_input (s : PulpSolver4DNN) (solve : SolverFn)
    (metric : PulpLinearMetric) (draw : ℚ → ℚ → ℚ) (pulp_constrain : ConstrainFn)
    (problem : LpProblem) (x : NdArray ℚ)
    (extra_constrs : List LpConstraint) (name_pfx : Option String) : FindPost :=
  let in_vars := s.input_in_vars
  if in_vars.shape = x.shape then
    let cstrs := extra_constrs ++ pulp_constrain s.d_var_name in_vars x name_pfx
    let problem1 := addAll problem cstrs
    let newLB := metric.draw_lower_bound draw
    match problem1.objective with
    | none =>
      { problem := problem1, d_var_low := newLB, extra := cstrs
        res := Except.error PyErr.AssertionError }
    | some obj =>
      match s.solver with
      | none =>
        { problem := problem1, d_var_low := newLB, extra := cstrs
          res := Except.error PyErr.AttributeError }
      | some b =>
        match solve b problem1 newLB s.d_var_up with
        | Except.error e =>
          { problem := problem1, d_var_low := newLB, extra := cstrs
            res := Except.error e }
        | Except.ok out =>
          let result : Option (ℚ × NdArray ℚ) :=
            if out.status = LpStatusT.Optimal then
              some (evalAffine out.valuation obj,
                    { shape := in_vars.shape, data := in_vars.data.map out.valuation })
            else none
          match delAll problem1 cstrs with
          | (problem2, none) =>
            { problem := problem2, d_var_low := newLB, extra := cstrs
              res := Except.ok result }
          | (problem2, some e) =>
            { problem := problem2, d_var_low := newLB, extra := cstrs
              res := Except.error e }
  else
    { problem := problem, d_var_low := s.d_var_low, extra := extra_constrs
      res := Except.error PyErr.AssertionError }

/-- A harness instance together with the single list object that is the
default value of the `extra_constrs` parameter.  In Python the default
`[]` is evaluated once at function definition, so every call made without
passing `extra_constrs` shares this one mutable list. -/
structure Session where
  st : PulpSolver4DNN
  default_extra : List LpConstraint

/-- One call of `find_constrained_input` made without passing
`extra_constrs`: the shared default list is used, and whatever the call
left in that list object persists into the next such call, as does the
mutated lower bound of the shared distance variable. -/
def find_default (sess : Session) (solve : SolverFn) (metric : PulpLinearMetric)
    (draw : ℚ → ℚ → ℚ) (pulp_constrain : ConstrainFn)
    (problem : LpProblem) (x : NdArray ℚ) (name_pfx : Option String) :
    FindPost × Session :=
  let r := sess.st.find_constrained_input solve metric draw pulp_constrain
             problem x sess.default_extra name_pfx
  (r, { st := { sess.st with d_var_low := r.d_var_low }, default_extra := r.extra })

/-! ### Dictionary lemmas

The rollback argument needs: inserting constraints whose names are fresh
and pairwise distinct appends them to the dictionary, and deleting them
again (in the same order) restores the original dictionary exactly. -/

theorem hasKey_append {κ α : Type} [DecidableEq κ] (k : κ) (d₁ d₂ : List (κ × α)) :
    hasKey k (d₁ ++ d₂) = (hasKey k d₁ || hasKey k d₂) := by
  induction d₁ with
  | nil => simp [hasKey]
  | cons e r ih =>
    by_cases h : e.1 = k <;> simp [hasKey, h, ih]

theorem setKey_of_not_hasKey {κ α : Type} [DecidableEq κ] (k : κ) (v : α)
    (d : List (κ × α)) (h : hasKey k d = false) : setKey k v d = d ++ [(k, v)] := by
  induction d with
  | nil => rfl
  | cons e r ih =>
    rw [hasKey] at h
    by_cases he : e.1 = k
    · simp [he] at h
    · rw [setKey]
      simp only [he, if_false] at h ⊢
      rw [ih h]
      rfl

theorem eraseKey_middle {κ α : Type} [DecidableEq κ] (k : κ) (v : α)
    (d r : List (κ × α)) (h : hasKey k d = false) :
    eraseKey k (d ++ (k, v) :: r) = d ++ r := by
  induction d with
  | nil => simp [eraseKey]
  | cons e t ih =>
    obtain ⟨k', v'⟩ := e
    rw [hasKey] at h
    by_cases he : k' = k
    · simp [he] at h
    · simp only [he, if_false] at h
      rw [List.cons_append, eraseKey, if_neg he, ih h, List.cons_append]

theorem addAll_objective (p : LpProblem) (cs : List LpConstraint) :
    (addAll p cs).objective = p.objective := by
  induction cs generalizing p with
  | nil => rfl
  | cons c cs ih => rw [addAll, List.foldl_cons, ← addAll, ih]; rfl

theorem addAll_eq_append (p : LpProblem) (cs : List LpConstraint)
    (hfresh : ∀ c ∈ cs, hasKey c.cname p.constraints = false)
    (hnodup : (cs.map LpConstraint.cname).Nodup) :
    addAll p cs = { p with constraints := p.constraints ++ cs.map (fun c => (c.cname, c)) } := by
  induction cs generalizing p with
  | nil => simp [addAll]
  | cons c cs ih =>
    rw [List.map_cons, List.nodup_cons] at hnodup
    have hc : hasKey c.cname p.constraints = false := hfresh c (List.mem_cons_self c cs)
    have hstep : p.addConstraint c
        = { p with constraints := p.constraints ++ [(c.cname, c)] } := by
      rw [LpProblem.addConstraint, setKey_of_not_hasKey c.cname c p.constraints hc]
    rw [addAll, List.foldl_cons, ← addAll, hstep, ih]
    · simp
    · intro c' hc'
      rw [hasKey_append, Bool.or_eq_false_iff]
      refine ⟨hfresh c' (List.mem_cons_of_mem c hc'), ?_⟩
      have hne : c.cname ≠ c'.cname := by
        intro he
        exact hnodup.1 (he ▸ List.mem_map_of_mem LpConstraint.cname hc')
      simp [hasKey, hne]
    · exact hnodup.2

theorem delAll_of_appended (p : LpProblem) (d : List (String × LpConstraint))
    (cs : List LpConstraint)
    (hfresh : ∀ c ∈ cs, hasKey c.cname d = false)
    (hnodup : (cs.map LpConstraint.cname).Nodup)
    (hp : p.constraints = d ++ cs.map (fun c => (c.cname, c))) :
    delAll p cs = ({ p with constraints := d }, none) := by
  induction cs generalizing p with
  | nil =>
    rw [delAll]
    simp only [List.map_nil, List.append_nil] at hp
    rw [← hp]
  | cons c cs ih =>
    rw [List.map_cons, List.nodup_cons] at hnodup
    have hc : hasKey c.cname d = false := hfresh c (List.mem_cons_self c cs)
    have hmem : hasKey c.cname p.constraints = true := by
      rw [hp, List.map_cons, hasKey_append, hasKey]
      simp
    rw [delAll, hmem, if_pos rfl]
    have herase : eraseKey c.cname p.constraints = d ++ cs.map (fun c => (c.cname, c)) := by
      rw [hp, List.map_cons, eraseKey_middle c.cname c d _ hc]
    exact ih { p with constraints := eraseKey c.cname p.constraints }
      (fun c' h' => hfresh c' (List.mem_cons_of_mem c h')) hnodup.2 herase

theorem addAll_delAll (p : LpProblem) (cs : List LpConstraint)
    (hfresh : ∀ c ∈ cs, hasKey c.cname p.constraints = false)
    (hnodup : (cs.map LpConstraint.cname).Nodup) :
    delAll (addAll p cs) cs = (p, none) := by
  rw [addAll_eq_append p cs hfresh hnodup]
  exact delAll_of_appended _ p.constraints cs hfresh hnodup rfl

/-! ### Claims about the metric (`C4`, `C7`) -/

/-- Claim C4, counterexample: with `LB_noise = 1/100 ∈ (0,1)`, bounds
`lower_bound = 9/10 ≤ upper_bound = 1`, and the bound-respecting drawing
function `min`, `draw_lower_bound` returns `min (9/10) (1/100) = 1/100`,
which lies strictly below `lower_bound`: the drawn value is NOT always in
`[lower_bound, upper_bound]`. -/
theorem draw_lower_bound_cex :
    (0 < (1 / 100 : ℚ) ∧ (1 / 100 : ℚ) < 1) ∧
    RespectsBounds (fun a b => min a b) ∧
    PulpLinearMetric.draw_lower_bound
        { low := 9 / 10, up := 1, LB_noise := 1 / 100 } (fun a b => min a b)
      < PulpLinearMetric.lower_bound { low := 9 / 10, up := 1, LB_noise := 1 / 100 } := by
  refine ⟨by norm_num, fun a b => ⟨le_refl _, min_le_max⟩, ?_⟩
  show min (9 / 10 : ℚ) (1 * (1 / 100)) < 9 / 10
  rw [min_def]
  norm_num

/-- Claim C4 (amended): `draw_lower_bound(draw)` returns exactly
`draw(lower_bound, upper_bound * LB_noise)`; provided the drawing window
is well-ordered below and above (`lower_bound ≤ upper_bound * LB_noise ≤
upper_bound`, which holds e.g. whenever `0 ≤ lower_bound ≤ upper_bound *
LB_noise` with `LB_noise ∈ (0,1)`), any bound-respecting `draw` yields a
value in `[lower_bound, upper_bound]`. -/
theorem draw_lower_bound_in_bounds (m : PulpLinearMetric) (draw : ℚ → ℚ → ℚ)
    (hdraw : RespectsBounds draw)
    (h1 : m.lower_bound ≤ m.upper_bound * m.LB_noise)
    (h2 : m.upper_bound * m.LB_noise ≤ m.upper_bound) :
    m.draw_lower_bound draw = draw m.lower_bound (m.upper_bound * m.LB_noise) ∧
    m.lower_bound ≤ m.draw_lower_bound draw ∧
    m.draw_lower_bound draw ≤ m.upper_bound := by
  obtain ⟨hlo, hhi⟩ := hdraw m.lower_bound (m.upper_bound * m.LB_noise)
  refine ⟨rfl, ?_, ?_⟩
  · calc m.lower_bound = min m.lower_bound (m.upper_bound * m.LB_noise) :=
        (min_eq_left h1).symm
      _ ≤ draw m.lower_bound (m.upper_bound * m.LB_noise) := hlo
  · calc m.draw_lower_bound draw ≤ max m.lower_bound (m.upper_bound * m.LB_noise) := hhi
      _ = m.upper_bound * m.LB_noise := max_eq_right h1
      _ ≤ m.upper_bound := h2

/-- Witness for the amended C4: metric with bounds `[0, 1]` and
`LB_noise = 1/2`, drawing function `min`. -/
theorem draw_lower_bound_in_bounds_witness :
    PulpLinearMetric.lower_bound { low := 0, up := 1, LB_noise := 1 / 2 }
      ≤ PulpLinearMetric.draw_lower_bound
          { low := 0, up := 1, LB_noise := 1 / 2 } (fun a b => min a b) ∧
    PulpLinearMetric.draw_lower_bound
        { low := 0, up := 1, LB_noise := 1 / 2 } (fun a b => min a b)
      ≤ PulpLinearMetric.upper_bound { low := 0, up := 1, LB_noise := 1 / 2 } :=
  (draw_lower_bound_in_bounds { low := 0, up := 1, LB_noise := 1 / 2 }
    (fun a b => min a b) (fun a b => ⟨le_refl _, min_le_max⟩)
    (by norm_num [PulpLinearMetric.lower_bound, PulpLinearMetric.upper_bound])
    (by norm_num [PulpLinearMetric.upper_bound])).2

/-- Claim C7: `PulpLinearMetric` construction succeeds (returning the
metric with the given noise factor) for every `LB_noise` strictly between
0 and 1, and raises `AssertionError` for every `LB_noise` outside the
open interval `(0,1)`. -/
theorem pulpLinearMetric_init_spec (LB_noise low up : ℚ) :
    (0 < LB_noise ∧ LB_noise < 1 →
      PulpLinearMetric.init LB_noise low up =
        Except.ok { low := low, up := up, LB_noise := LB_noise }) ∧
    (¬ (0 < LB_noise ∧ LB_noise < 1) →
      PulpLinearMetric.init LB_noise low up = Except.error PyErr.AssertionError) := by
  constructor <;> intro h <;> simp [PulpLinearMetric.init, h]

/-- Witness for C7: construction succeeds at `LB_noise = 1/2` and fails
at `LB_noise = 2`. -/
theorem pulpLinearMetric_init_spec_witness :
    PulpLinearMetric.init (1 / 2) 0 1 =
      Except.ok { low := 0, up := 1, LB_noise := 1 / 2 } ∧
    PulpLinearMetric.init 2 0 1 = Except.error PyErr.AssertionError :=
  ⟨(pulpLinearMetric_init_spec (1 / 2) 0 1).1 (by norm_num),
   (pulpLinearMetric_init_spec 2 0 1).2 (by norm_num)⟩

/-! ### Concrete sample data for witnesses and counterexamples -/

/-- A base constraint, standing for the DNN encoding. -/
def cBase : LpConstraint := { cname := "base", terms := [("x0", 1)], rhs := 0 }

/-- An ephemeral metric constraint. -/
def cM0 : LpConstraint := { cname := "m0", terms := [("x0", 1), ("d", -1)], rhs := 1 / 2 }

/-- A second ephemeral metric constraint. -/
def cM1 : LpConstraint := { cname := "m1", terms := [("x0", -1), ("d", -1)], rhs := -1 / 2 }

/-- A one-variable symbolic input array. -/
def sampleVars : NdArray String := { shape := [1], data := ["x0"] }

/-- A sample metric with bounds `[0, 1]` and 1% noise. -/
def sampleMetric : PulpLinearMetric := { low := 0, up := 1, LB_noise := 1 / 100 }

/-- A deterministic drawing function (always the lower end). -/
def sampleDraw : ℚ → ℚ → ℚ := fun a _ => a

/-- A metric-constraint generator producing the single constraint `cM0`. -/
def sampleConstrain : ConstrainFn := fun _ _ _ _ => [cM0]

/-- A concrete input point. -/
def sampleX : NdArray ℚ := { shape := [1], data := [1 / 2] }

/-- A solver state with one input variable and an assigned backend. -/
def sampleState : PulpSolver4DNN :=
  { solver := some "PULP_CBC_CMD", input_in_vars := sampleVars, base_constraints := []
    d_var_name := "d", d_var_low := 0, d_var_up := 1 }

/-- A cached problem with the distance-variable objective. -/
def pOpt : LpProblem := { constraints := [("base", cBase)], objective := some [("d", 1)] }

/-- An outcome in which the backend reports `Optimal` with every variable
at `1/2`. -/
def outOpt : SolveOutcome := { status := LpStatusT.Optimal, valuation := fun _ => 1 / 2 }

/-- A backend that always returns `outOpt`. -/
def solveOk : SolverFn := fun _ _ _ _ => Except.ok outOpt

/-! ### The normal (exception-free) path of `find_constrained_input` -/

/-- On the normal path — matching shapes, non-null objective, an assigned
backend, a solver call that returns instead of raising, and ephemeral
constraints with fresh pairwise-distinct names — `find_constrained_input`
restores the problem exactly, leaves the shared lower bound at the value
drawn for this call, leaves the ephemeral constraints in the
`extra_constrs` list object, and returns the witness exactly on status
`Optimal`. -/
theorem find_normal_path (s : PulpSolver4DNN) (solve : SolverFn)
    (metric : PulpLinearMetric) (draw : ℚ → ℚ → ℚ) (pc : ConstrainFn)
    (problem : LpProblem) (x : NdArray ℚ) (extra : List LpConstraint)
    (np : Option String) (b : String) (obj : List (String × ℚ)) (out : SolveOutcome)
    (hshape : s.input_in_vars.shape = x.shape)
    (hobj : problem.objective = some obj)
    (hb : s.solver = some b)
    (hsolve : solve b (addAll problem (extra ++ pc s.d_var_name s.input_in_vars x np))
        (metric.draw_lower_bound draw) s.d_var_up = Except.ok out)
    (hfresh : ∀ c ∈ extra ++ pc s.d_var_name s.input_in_vars x np,
        hasKey c.cname problem.constraints = false)
    (hnodup : ((extra ++ pc s.d_var_name s.input_in_vars x np).map LpConstraint.cname).Nodup) :
    s.find_constrained_input solve metric draw pc problem x extra np =
      { problem := problem
        d_var_low := metric.draw_lower_bound draw
        extra := extra ++ pc s.d_var_name s.input_in_vars x np
        res := Except.ok (if out.status = LpStatusT.Optimal then
          some (evalAffine out.valuation obj,
                { shape := x.shape, data := s.input_in_vars.data.map out.valuation })
          else none) } := by
  have hobj1 : (addAll problem (extra ++ pc s.d_var_name s.input_in_vars x np)).objective
      = some obj := by rw [addAll_objective, hobj]
  have hdel := addAll_delAll problem (extra ++ pc s.d_var_name s.input_in_vars x np)
    hfresh hnodup
  rw [PulpSolver4DNN.find_constrained_input]
  simp only [hshape, eq_self_iff_true, if_true, hobj1, hb, hsolve, hdel]

/-! ### Claims C1 and C2: rollback and result of `find_constrained_input` -/

/-- Claim C1, counterexample: the ephemeral-constraint mutation is NOT
rolled back on every exit path.  Calling `find_constrained_input` on a
problem whose objective is null raises `AssertionError` (an exception
before the solve), after the ephemeral constraint `m0` has already been
added: the constraint-name set grows from `[base]` to `[base, m0]` and
stays that way, because no try/finally protects the cleanup loop. -/
theorem find_rollback_cex :
    ((sampleState.find_constrained_input (fun _ _ _ _ => Except.error PyErr.SolverError)
        sampleMetric sampleDraw sampleConstrain
        { constraints := [("base", cBase)], objective := none } sampleX [] none).res
      = Except.error PyErr.AssertionError) ∧
    ¬ ((sampleState.find_constrained_input (fun _ _ _ _ => Except.error PyErr.SolverError)
        sampleMetric sampleDraw sampleConstrain
        { constraints := [("base", cBase)], objective := none } sampleX [] none).problem.constraints.map Prod.fst
      = ({ constraints := [("base", cBase)], objective := none } : LpProblem).constraints.map Prod.fst) :=
  ⟨rfl, by decide⟩

/-- Claim C1 (amended): for every call to `find_constrained_input` on a
problem whose constraint dictionary is `S` before the call, provided the
call returns normally — shapes match, the objective is non-null, a
backend is assigned, the solver returns rather than raising — and the
ephemeral constraints carry fresh, pairwise-distinct names, the problem
after the call equals its state before the call (in particular the
constraint-name set equals `S`), regardless of the solver status
returned.  The rollback is NOT performed when an exception escapes
between the constraint additions and the cleanup loop (see the
counterexample): only normal exit paths are transactional. -/
theorem find_constrained_input_rollback (s : PulpSolver4DNN) (solve : SolverFn)
    (metric : PulpLinearMetric) (draw : ℚ → ℚ → ℚ) (pc : ConstrainFn)
    (problem : LpProblem) (x : NdArray ℚ) (extra : List LpConstraint)
    (np : Option String) (b : String) (obj : List (String × ℚ)) (out : SolveOutcome)
    (hshape : s.input_in_vars.shape = x.shape)
    (hobj : problem.objective = some obj)
    (hb : s.solver = some b)
    (hsolve : solve b (addAll problem (extra ++ pc s.d_var_name s.input_in_vars x np))
        (metric.draw_lower_bound draw) s.d_var_up = Except.ok out)
    (hfresh : ∀ c ∈ extra ++ pc s.d_var_name s.input_in_vars x np,
        hasKey c.cname problem.constraints = false)
    (hnodup : ((extra ++ pc s.d_var_name s.input_in_vars x np).map LpConstraint.cname).Nodup) :
    (s.find_constrained_input solve metric draw pc problem x extra np).problem = problem := by
  rw [find_normal_path s solve metric draw pc problem x extra np b obj out
    hshape hobj hb hsolve hfresh hnodup]

/-- Witness for the amended C1 at concrete data: one base constraint, one
fresh ephemeral constraint, an `Optimal` solve. -/
theorem find_constrained_input_rollback_witness :
    (sampleState.find_constrained_input solveOk sampleMetric sampleDraw sampleConstrain
        pOpt sampleX [] none).problem = pOpt :=
  find_constrained_input_rollback sampleState solveOk sampleMetric sampleDraw
    sampleConstrain pOpt sampleX [] none "PULP_CBC_CMD" [("d", 1)] outOpt
    (by decide) rfl rfl rfl (by decide) (by decide)

/-- Claim C2: on the normal path, `find_constrained_input` returns the
pair (objective value, witness array of the shape of `x` holding each
input variable's assigned value) exactly when the solver status is
`Optimal`, and returns `None` — not an error — for every other status. -/
theorem find_constrained_input_result (s : PulpSolver4DNN) (solve : SolverFn)
    (metric : PulpLinearMetric) (draw : ℚ → ℚ → ℚ) (pc : ConstrainFn)
    (problem : LpProblem) (x : NdArray ℚ) (extra : List LpConstraint)
    (np : Option String) (b : String) (obj : List (String × ℚ)) (out : SolveOutcome)
    (hshape : s.input_in_vars.shape = x.shape)
    (hobj : problem.objective = some obj)
    (hb : s.solver = some b)
    (hsolve : solve b (addAll problem (extra ++ pc s.d_var_name s.input_in_vars x np))
        (metric.draw_lower_bound draw) s.d_var_up = Except.ok out)
    (hfresh : ∀ c ∈ extra ++ pc s.d_var_name s.input_in_vars x np,
        hasKey c.cname problem.constraints = false)
    (hnodup : ((extra ++ pc s.d_var_name s.input_in_vars x np).map LpConstraint.cname).Nodup) :
    (s.find_constrained_input solve metric draw pc problem x extra np).res =
      Except.ok (if out.status = LpStatusT.Optimal then
        some (evalAffine out.valuation obj,
              { shape := x.shape, data := s.input_in_vars.data.map out.valuation })
        else none) := by
  rw [find_normal_path s solve metric draw pc problem x extra np b obj out
    hshape hobj hb hsolve hfresh hnodup]

/-- Witness for C2 at concrete data: an `Optimal` outcome valuing every
variable at `1/2` yields objective value `1/2` and the witness array
`[1/2]` of shape `[1]`. -/
theorem find_constrained_input_result_witness :
    (sampleState.find_constrained_input solveOk sampleMetric sampleDraw sampleConstrain
        pOpt sampleX [] none).res =
      Except.ok (if outOpt.status = LpStatusT.Optimal then
        some (evalAffine outOpt.valuation [("d", 1)],
              { shape := sampleX.shape, data := sampleState.input_in_vars.data.map outOpt.valuation })
        else none) :=
  find_constrained_input_result sampleState solveOk sampleMetric sampleDraw
    sampleConstrain pOpt sampleX [] none "PULP_CBC_CMD" [("d", 1)] outOpt
    (by decide) rfl rfl rfl (by decide) (by decide)

/-! ### Claim C3: `for_layer` -/

theorem lookupKey_eq_none_iff {κ α : Type} [DecidableEq κ] (k : κ) (d : List (κ × α)) :
    lookupKey k d = none ↔ hasKey k d = false := by
  induction d with
  | nil => simp [lookupKey, hasKey]
  | cons e r ih =>
    obtain ⟨k', v⟩ := e
    by_cases h : k' = k <;> simp [lookupKey, hasKey, h, ih]

theorem hasKey_iff_mem_keys {κ α : Type} [DecidableEq κ] (k : κ) (d : List (κ × α)) :
    hasKey k d = true ↔ k ∈ d.map Prod.fst := by
  induction d with
  | nil => simp [hasKey]
  | cons e r ih =>
    obtain ⟨k', v⟩ := e
    by_cases h : k' = k
    · simp [hasKey, h]
    · have h' : ¬ k = k' := fun e' => h e'.symm
      simp [hasKey, h, h', ih]

theorem for_layer_eq (s : PulpSolver4DNN) (cl : CL) :
    s.for_layer cl =
      match lookupKey (cl.layer_index + (if cl.relu then 0 else 1)) s.base_constraints with
      | some p => Except.ok p
      | none => Except.error PyErr.KeyError := rfl

/-- Claim C3: `for_layer` looks up the cache at key `cl.layer_index + (0
if the layer's activation is ReLU else 1)` — depth `L` for a ReLU layer
at index `L`, depth `L+1` otherwise — returning the cached problem for
that key, and raises a `KeyError` exactly when the key falls outside the
built range `[first, upto]` (the cache built by `setup` has one problem
per depth in that interval). -/
theorem for_layer_spec (s : PulpSolver4DNN) (cl : CL) (first upto : Nat)
    (hfu : first ≤ upto)
    (hkeys : s.base_constraints.map Prod.fst = List.range' first (upto + 1 - first)) :
    ((cl.relu = true → cl.layer_index + (if cl.relu then 0 else 1) = cl.layer_index) ∧
     (cl.relu = false → cl.layer_index + (if cl.relu then 0 else 1) = cl.layer_index + 1)) ∧
    (∀ p, s.for_layer cl = Except.ok p →
      lookupKey (cl.layer_index + (if cl.relu then 0 else 1)) s.base_constraints = some p) ∧
    (s.for_layer cl = Except.error PyErr.KeyError ↔
      ¬ (first ≤ cl.layer_index + (if cl.relu then 0 else 1) ∧
         cl.layer_index + (if cl.relu then 0 else 1) ≤ upto)) := by
  have hmem : ∀ k : Nat, hasKey k s.base_constraints = true ↔ (first ≤ k ∧ k ≤ upto) := by
    intro k
    rw [hasKey_iff_mem_keys, hkeys, List.mem_range'_1]
    omega
  refine ⟨⟨fun h => by simp [h], fun h => by simp [h]⟩, ?_, ?_⟩
  · intro p hp
    rw [for_layer_eq] at hp
    cases hl : lookupKey (cl.layer_index + (if cl.relu then 0 else 1)) s.base_constraints with
    | none => rw [hl] at hp; exact Except.noConfusion hp
    | some q =>
      rw [hl] at hp
      injection hp with h
      rw [h]
  · rw [for_layer_eq]
    cases hl : lookupKey (cl.layer_index + (if cl.relu then 0 else 1)) s.base_constraints with
    | none =>
      have hout : hasKey (cl.layer_index + (if cl.relu then 0 else 1)) s.base_constraints
          = false := (lookupKey_eq_none_iff _ _).mp hl
      constructor
      · intro _ hin
        rw [(hmem _).mpr hin] at hout
        exact Bool.noConfusion hout
      · intro _; rfl
    | some q =>
      have hin : hasKey (cl.layer_index + (if cl.relu then 0 else 1)) s.base_constraints
          = true := by
        cases hk : hasKey (cl.layer_index + (if cl.relu then 0 else 1)) s.base_constraints with
        | false => rw [(lookupKey_eq_none_iff _ _).mpr hk] at hl; exact Option.noConfusion hl
        | true => rfl
      constructor
      · intro hcontra; exact Except.noConfusion hcontra
      · intro hout; exact absurd ((hmem _).mp hin) hout

/-- Witness for C3: a cache with depths `[1, 2]`; a ReLU layer at index
1 maps inside the range, and the lookup facts of the theorem hold. -/
theorem for_layer_spec_witness :
    (((⟨1, true⟩ : CL).relu = true →
      (⟨1, true⟩ : CL).layer_index + (if (⟨1, true⟩ : CL).relu then 0 else 1)
        = (⟨1, true⟩ : CL).layer_index) ∧
     ((⟨1, true⟩ : CL).relu = false →
      (⟨1, true⟩ : CL).layer_index + (if (⟨1, true⟩ : CL).relu then 0 else 1)
        = (⟨1, true⟩ : CL).layer_index + 1)) ∧
    (∀ p, (PulpSolver4DNN.mk (some "PULP_CBC_CMD") sampleVars [(1, pOpt), (2, pOpt)] "d" 0 1).for_layer
        ⟨1, true⟩ = Except.ok p →
      lookupKey ((⟨1, true⟩ : CL).layer_index + (if (⟨1, true⟩ : CL).relu then 0 else 1))
        [(1, pOpt), (2, pOpt)] = some p) ∧
    ((PulpSolver4DNN.mk (some "PULP_CBC_CMD") sampleVars [(1, pOpt), (2, pOpt)] "d" 0 1).for_layer
        ⟨1, true⟩ = Except.error PyErr.KeyError ↔
      ¬ (1 ≤ (⟨1, true⟩ : CL).layer_index + (if (⟨1, true⟩ : CL).relu then 0 else 1) ∧
         (⟨1, true⟩ : CL).layer_index + (if (⟨1, true⟩ : CL).relu then 0 else 1) ≤ 2)) :=
  for_layer_spec (PulpSolver4DNN.mk (some "PULP_CBC_CMD") sampleVars [(1, pOpt), (2, pOpt)] "d" 0 1)
    ⟨1, true⟩ 1 2 (by decide) (by decide)

/-! ### Claim C5: the lower-bound redraw -/

/-- Claim C5: whenever the shape precondition lets the call proceed,
`find_constrained_input` re-assigns the shared distance variable's lower
bound to the freshly drawn `metric.draw_lower_bound()` value — the final
state carries that value on every return path, so the cleanup loop never
undoes it and it persists after the call — and the redraw happens before
the solver is invoked: the call's entire behaviour depends on the backend
only through its response at the freshly drawn lower bound (two backends
agreeing there are indistinguishable).  Since `d_var_low` is a field of
the one harness state shared by every cached problem, the mutation
applies to all of them at once. -/
theorem find_redraws_lower_bound (s : PulpSolver4DNN) (solve solve2 : SolverFn)
    (metric : PulpLinearMetric) (draw : ℚ → ℚ → ℚ) (pc : ConstrainFn)
    (problem : LpProblem) (x : NdArray ℚ) (extra : List LpConstraint) (np : Option String)
    (hshape : s.input_in_vars.shape = x.shape)
    (hagree : ∀ b p, solve b p (metric.draw_lower_bound draw) s.d_var_up
        = solve2 b p (metric.draw_lower_bound draw) s.d_var_up) :
    (s.find_constrained_input solve metric draw pc problem x extra np).d_var_low
      = metric.draw_lower_bound draw ∧
    s.find_constrained_input solve2 metric draw pc problem x extra np
      = s.find_constrained_input solve metric draw pc problem x extra np := by
  constructor
  · rw [PulpSolver4DNN.find_constrained_input]
    simp only [hshape, eq_self_iff_true, if_true]
    cases hobj : (addAll problem (extra ++ pc s.d_var_name s.input_in_vars x np)).objective with
    | none => rfl
    | some obj =>
      dsimp only
      cases hsv : s.solver with
      | none => rfl
      | some b =>
        dsimp only
        cases hres : solve b (addAll problem (extra ++ pc s.d_var_name s.input_in_vars x np))
            (metric.draw_lower_bound draw) s.d_var_up with
        | error e => rfl
        | ok out =>
          dsimp only
          cases hdel : delAll (addAll problem (extra ++ pc s.d_var_name s.input_in_vars x np))
              (extra ++ pc s.d_var_name s.input_in_vars x np) with
          | mk p2 oe => cases oe <;> rfl
  · rw [PulpSolver4DNN.find_constrained_input, PulpSolver4DNN.find_constrained_input]
    simp only [hshape, eq_self_iff_true, if_true]
    cases hobj : (addAll problem (extra ++ pc s.d_var_name s.input_in_vars x np)).objective with
    | none => rfl
    | some obj =>
      dsimp only
      cases hsv : s.solver with
      | none => rfl
      | some b =>
        dsimp only
        rw [← hagree b (addAll problem (extra ++ pc s.d_var_name s.input_in_vars x np))]

/-- Witness for C5: a backend that answers only at the drawn lower bound
agrees there with `solveOk`, and the call leaves the drawn value in
place. -/
theorem find_redraws_lower_bound_witness :
    (sampleState.find_constrained_input
        (fun b p lo hi => if lo = 0 then solveOk b p lo hi else Except.error PyErr.SolverError)
        sampleMetric sampleDraw sampleConstrain pOpt sampleX [] none).d_var_low
      = sampleMetric.draw_lower_bound sampleDraw ∧
    sampleState.find_constrained_input solveOk
        sampleMetric sampleDraw sampleConstrain pOpt sampleX [] none
      = sampleState.find_constrained_input
          (fun b p lo hi => if lo = 0 then solveOk b p lo hi else Except.error PyErr.SolverError)
          sampleMetric sampleDraw sampleConstrain pOpt sampleX [] none :=
  find_redraws_lower_bound sampleState
    (fun b p lo hi => if lo = 0 then solveOk b p lo hi else Except.error PyErr.SolverError)
    solveOk sampleMetric sampleDraw sampleConstrain pOpt sampleX [] none
    (by decide) (fun b p => rfl)

/-! ### Claim C6: the shape precondition -/

/-- Claim C6: calling `find_constrained_input` with an input array whose
shape differs from the symbolic input-variable array's shape fails
immediately with the `assert`'s `AssertionError`: the problem, the shared
lower bound and the `extra_constrs` list are all untouched, and the
outcome does not depend on the backend, the drawing function or the
metric-constraint generator — none of them is ever invoked. -/
theorem find_shape_mismatch (s : PulpSolver4DNN) (solve : SolverFn)
    (metric : PulpLinearMetric) (draw : ℚ → ℚ → ℚ) (pc : ConstrainFn)
    (problem : LpProblem) (x : NdArray ℚ) (extra : List LpConstraint) (np : Option String)
    (hshape : ¬ s.input_in_vars.shape = x.shape) :
    s.find_constrained_input solve metric draw pc problem x extra np =
      { problem := problem, d_var_low := s.d_var_low, extra := extra
        res := Except.error PyErr.AssertionError } ∧
    ∀ (solve2 : SolverFn) (pc2 : ConstrainFn) (draw2 : ℚ → ℚ → ℚ),
      s.find_constrained_input solve2 metric draw2 pc2 problem x extra np
        = s.find_constrained_input solve metric draw pc problem x extra np := by
  constructor
  · rw [PulpSolver4DNN.find_constrained_input]
    simp only [hshape, if_false]
  · intro solve2 pc2 draw2
    rw [PulpSolver4DNN.find_constrained_input, PulpSolver4DNN.find_constrained_input]
    simp only [hshape, if_false]

/-- Witness for C6: input of shape `[2]` against a symbolic input array
of shape `[1]`. -/
theorem find_shape_mismatch_witness :
    sampleState.find_constrained_input solveOk sampleMetric sampleDraw sampleConstrain
        pOpt { shape := [2], data := [0, 0] } [] none =
      { problem := pOpt, d_var_low := sampleState.d_var_low, extra := []
        res := Except.error PyErr.AssertionError } ∧
    ∀ (solve2 : SolverFn) (pc2 : ConstrainFn) (draw2 : ℚ → ℚ → ℚ),
      sampleState.find_constrained_input solve2 sampleMetric draw2 pc2
          pOpt { shape := [2], data := [0, 0] } [] none
        = sampleState.find_constrained_input solveOk sampleMetric sampleDraw sampleConstrain
            pOpt { shape := [2], data := [0, 0] } [] none :=
  find_shape_mismatch sampleState solveOk sampleMetric sampleDraw sampleConstrain
    pOpt { shape := [2], data := [0, 0] } [] none (by decide)

/-! ### Claim C8: state after `setup` -/

/-- Whether a problem's objective is non-null and mentions the given
variable. -/
def objectiveHasVar (p : LpProblem) (v : String) : Bool :=
  match p.objective with
  | some e => e.any (fun t => t.1 == v)
  | none => false

/-- Claim C8: after `setup`, the single shared distance variable has
lower bound `metric.draw_lower_bound()` (one draw, taken at setup) and
upper bound `metric.upper_bound`, and every problem in the per-layer
cache has a non-null objective containing that shared variable. -/
theorem setup_objective (solver : Option String) (metric : PulpLinearMetric)
    (draw : ℚ → ℚ → ℚ) (in_vars : NdArray String) (base : List (Nat × LpProblem)) :
    (PulpSolver4DNN.setup solver metric draw in_vars base).d_var_low
      = metric.draw_lower_bound draw ∧
    (PulpSolver4DNN.setup solver metric draw in_vars base).d_var_up
      = metric.upper_bound ∧
    ((PulpSolver4DNN.setup solver metric draw in_vars base).base_constraints.all
      (fun e => objectiveHasVar e.2
        (PulpSolver4DNN.setup solver metric draw in_vars base).d_var_name)) = true := by
  refine ⟨rfl, rfl, ?_⟩
  rw [List.all_eq_true]
  intro e he
  rw [PulpSolver4DNN.setup] at he
  simp only [List.mem_map] at he
  obtain ⟨e0, _, rfl⟩ := he
  rfl

/-! ### Claim C9: no available backend -/

/-- Claim C9: when no name of the preference-ordered `try_solvers` list
occurs among the available backends, construction leaves the harness
without an assigned backend (`solver = none`, the Python constructor
itself raising nothing), and it is only a later solve call that fails:
`find_constrained_input` reaches the `problem.solve(self.solver)` line
(past the shape and objective assertions) and raises there. -/
theorem no_available_backend (tries available : List String) (s : PulpSolver4DNN)
    (solve : SolverFn) (metric : PulpLinearMetric) (draw : ℚ → ℚ → ℚ) (pc : ConstrainFn)
    (problem : LpProblem) (x : NdArray ℚ) (extra : List LpConstraint) (np : Option String)
    (obj : List (String × ℚ))
    (h : ∀ n ∈ tries, available.contains n = false)
    (hs : s.solver = selectSolver tries available)
    (hshape : s.input_in_vars.shape = x.shape)
    (hobj : problem.objective = some obj) :
    s.solver = none ∧
    (s.find_constrained_input solve metric draw pc problem x extra np).res
      = Except.error PyErr.AttributeError := by
  have hnone : selectSolver tries available = none := by
    rw [selectSolver, List.find?_eq_none]
    intro a ha
    simp only [h a ha]
    exact Bool.false_ne_true
  have hsn : s.solver = none := by rw [hs, hnone]
  refine ⟨hsn, ?_⟩
  rw [PulpSolver4DNN.find_constrained_input]
  have hobj1 : (addAll problem (extra ++ pc s.d_var_name s.input_in_vars x np)).objective
      = some obj := by rw [addAll_objective, hobj]
  simp only [hshape, eq_self_iff_true, if_true, hobj1, hsn]

/-- Witness for C9: preference list `[PYGLPK]`, available backends
`[COIN_CMD]`; the constructed harness has no solver and the solve call
raises `AttributeError`. -/
theorem no_available_backend_witness :
    (PulpSolver4DNN.mk none sampleVars [] "d" 0 1).solver = none ∧
    ((PulpSolver4DNN.mk none sampleVars [] "d" 0 1).find_constrained_input solveOk
        sampleMetric sampleDraw sampleConstrain pOpt sampleX [] none).res
      = Except.error PyErr.AttributeError :=
  no_available_backend ["PYGLPK"] ["COIN_CMD"] (PulpSolver4DNN.mk none sampleVars [] "d" 0 1)
    solveOk sampleMetric sampleDraw sampleConstrain pOpt sampleX [] none [("d", 1)]
    (by decide) (by decide) (by decide) rfl

/-! ### Claim C10: the shared mutable default `extra_constrs` list -/

/-- Whenever the shape assertion passes, `find_constrained_input` leaves
the `extra_constrs` list object extended in place by the metric-generated
constraints — on every return path, and nothing is ever removed from it
(`del cstrs, extra_constrs` merely drops the local names). -/
theorem find_extra_eq (s : PulpSolver4DNN) (solve : SolverFn) (metric : PulpLinearMetric)
    (draw : ℚ → ℚ → ℚ) (pc : ConstrainFn) (problem : LpProblem) (x : NdArray ℚ)
    (extra : List LpConstraint) (np : Option String)
    (hshape : s.input_in_vars.shape = x.shape) :
    (s.find_constrained_input solve metric draw pc problem x extra np).extra
      = extra ++ pc s.d_var_name s.input_in_vars x np := by
  rw [PulpSolver4DNN.find_constrained_input]
  simp only [hshape, eq_self_iff_true, if_true]
  cases hobj : (addAll problem (extra ++ pc s.d_var_name s.input_in_vars x np)).objective with
  | none => rfl
  | some obj =>
    dsimp only
    cases hsv : s.solver with
    | none => rfl
    | some b =>
      dsimp only
      cases hres : solve b (addAll problem (extra ++ pc s.d_var_name s.input_in_vars x np))
          (metric.draw_lower_bound draw) s.d_var_up with
      | error e => rfl
      | ok out =>
        dsimp only
        cases hdel : delAll (addAll problem (extra ++ pc s.d_var_name s.input_in_vars x np))
            (extra ++ pc s.d_var_name s.input_in_vars x np) with
        | mk p2 oe => cases oe <;> rfl

/-- Claim C10: calls made without passing `extra_constrs` share one
mutable default list.  Starting from an empty default list, the first
call leaves its metric constraints in the list; the second call finds
them still there, accumulates its own after them, and — being just a
call with the stale list as `extra_constrs` — re-adds the stale
constraints to the problem it solves. -/
theorem default_extra_accumulates (sess0 : Session) (solve : SolverFn)
    (metric : PulpLinearMetric) (draw : ℚ → ℚ → ℚ) (pc : ConstrainFn)
    (problem1 problem2 : LpProblem) (x1 x2 : NdArray ℚ) (np1 np2 : Option String)
    (h0 : sess0.default_extra = [])
    (hshape1 : sess0.st.input_in_vars.shape = x1.shape)
    (hshape2 : sess0.st.input_in_vars.shape = x2.shape) :
    (find_default sess0 solve metric draw pc problem1 x1 np1).2.default_extra
      = pc sess0.st.d_var_name sess0.st.input_in_vars x1 np1 ∧
    (find_default (find_default sess0 solve metric draw pc problem1 x1 np1).2
        solve metric draw pc problem2 x2 np2).2.default_extra
      = pc sess0.st.d_var_name sess0.st.input_in_vars x1 np1
        ++ pc sess0.st.d_var_name sess0.st.input_in_vars x2 np2 ∧
    (find_default (find_default sess0 solve metric draw pc problem1 x1 np1).2
        solve metric draw pc problem2 x2 np2).1
      = (find_default sess0 solve metric draw pc problem1 x1 np1).2.st.find_constrained_input
          solve metric draw pc problem2 x2
          (pc sess0.st.d_var_name sess0.st.input_in_vars x1 np1) np2 := by
  have hst : (find_default sess0 solve metric draw pc problem1 x1 np1).2.st.input_in_vars
      = sess0.st.input_in_vars := rfl
  have hdn : (find_default sess0 solve metric draw pc problem1 x1 np1).2.st.d_var_name
      = sess0.st.d_var_name := rfl
  have h1 : (find_default sess0 solve metric draw pc problem1 x1 np1).2.default_extra
      = pc sess0.st.d_var_name sess0.st.input_in_vars x1 np1 := by
    show (sess0.st.find_constrained_input solve metric draw pc problem1 x1
        sess0.default_extra np1).extra = _
    rw [find_extra_eq sess0.st solve metric draw pc problem1 x1 sess0.default_extra np1 hshape1,
      h0, List.nil_append]
  refine ⟨h1, ?_, ?_⟩
  · show ((find_default sess0 solve metric draw pc problem1 x1 np1).2.st.find_constrained_input
        solve metric draw pc problem2 x2
        (find_default sess0 solve metric draw pc problem1 x1 np1).2.default_extra np2).extra = _
    rw [find_extra_eq _ solve metric draw pc problem2 x2 _ np2 (by rw [hst]; exact hshape2),
      h1, hst, hdn]
  · show (find_default sess0 solve metric draw pc problem1 x1 np1).2.st.find_constrained_input
        solve metric draw pc problem2 x2
        (find_default sess0 solve metric draw pc problem1 x1 np1).2.default_extra np2 = _
    rw [h1]

/-- Witness for C10: two parameterless-`extra_constrs` calls on a fresh
session; the default list ends as the concatenation of both calls' metric
constraints. -/
theorem default_extra_accumulates_witness :
    (find_default ⟨sampleState, []⟩ solveOk sampleMetric sampleDraw sampleConstrain
        pOpt sampleX none).2.default_extra
      = sampleConstrain sampleState.d_var_name sampleState.input_in_vars sampleX none ∧
    (find_default (find_default ⟨sampleState, []⟩ solveOk sampleMetric sampleDraw sampleConstrain
          pOpt sampleX none).2
        solveOk sampleMetric sampleDraw sampleConstrain pOpt sampleX none).2.default_extra
      = sampleConstrain sampleState.d_var_name sampleState.input_in_vars sampleX none
        ++ sampleConstrain sampleState.d_var_name sampleState.input_in_vars sampleX none ∧
    (find_default (find_default ⟨sampleState, []⟩ solveOk sampleMetric sampleDraw sampleConstrain
          pOpt sampleX none).2
        solveOk sampleMetric sampleDraw sampleConstrain pOpt sampleX none).1
      = (find_default ⟨sampleState, []⟩ solveOk sampleMetric sampleDraw sampleConstrain
          pOpt sampleX none).2.st.find_constrained_input
          solveOk sampleMetric sampleDraw sampleConstrain pOpt sampleX
          (sampleConstrain sampleState.d_var_name sampleState.input_in_vars sampleX none) none :=
  default_extra_accumulates ⟨sampleState, []⟩ solveOk sampleMetric sampleDraw sampleConstrain
    pOpt pOpt sampleX sampleX none none rfl (by decide) (by decide)

end DeepConcolic
